import Mathlib

/-!
Shallow embedding of the `bc` transaction package: the transaction data
types, their binary codec (`writeTo`/`readFrom`), the canonical transaction
hash, and the signature-hash engine, together with theorems checking the
specification's claims against them.

Bytes are modelled as `List Nat` (each entry a byte value); fallible
decoding returns `Except DecodeErr`; machine-integer truncations
(`uint32(v)`) are explicit `% 2^32`.
-/

namespace BC

/-- A byte stream: a list of byte values. -/
abbrev Bytes := List Nat

/-! ### Byte-stream primitives

Modelled from the spec: the `chain/encoding/blockchain` package is not under
`src/`; the spec describes it as "varint read/write, length-prefixed byte
read/write with a max-length cap", with "Varint: unsigned variable-length
integer encoding (LEB128-style)" and "Length-prefixed: a varint byte-length
followed by that many raw bytes, each field capped; exceeding a cap is a
decode error". -/

/-- Fuel-indexed worker for `writeUvarint` (structural recursion, so the
kernel can evaluate it; the fuel never runs out when it starts at `n`). -/
def writeUvarintAux : Nat → Nat → Bytes
  | 0, n => [n]
  | fuel + 1, n =>
    if n < 128 then [n] else (n % 128 + 128) :: writeUvarintAux fuel (n / 128)

/-- Modelled from the spec: LEB128-style unsigned varint encoding
(`blockchain.WriteUvarint`), low 7 bits first, high bit marks continuation. -/
def writeUvarint (n : Nat) : Bytes := writeUvarintAux n n

/-- Modelled from the spec: LEB128-style unsigned varint decoding
(`blockchain.ReadUvarint`); `none` on a truncated stream. -/
def readUvarint : Bytes → Option (Nat × Bytes)
  | [] => none
  | b :: rest =>
    if b < 128 then some (b, rest)
    else
      match readUvarint rest with
      | none => none
      | some (n, r) => some (b % 128 + 128 * n, r)

/-- Read exactly `n` bytes from the stream (`io.ReadFull`); `none` if fewer
are available. -/
def readN : Nat → Bytes → Option (Bytes × Bytes)
  | 0, s => some ([], s)
  | _ + 1, [] => none
  | n + 1, b :: s =>
    match readN n s with
    | none => none
    | some (bs, r) => some (b :: bs, r)

/-- Decode errors.  Modelled from the spec's error kinds: MalformedEncoding
(truncated stream), UnsupportedFlags, FieldTooLarge, InvalidHexText. -/
inductive DecodeErr where
  | truncated
  | fieldTooLarge
  | unsupportedFlags (b : Nat)
  | invalidHex
deriving DecidableEq

/-- Decidable equality on `Except`, for evaluating decode results on
concrete inputs. -/
instance {ε α : Type} [DecidableEq ε] [DecidableEq α] : DecidableEq (Except ε α) := fun x y =>
  match x, y with
  | .error e, .error e' =>
    if h : e = e' then .isTrue (by rw [h]) else .isFalse (by simp [h])
  | .ok a, .ok a' =>
    if h : a = a' then .isTrue (by rw [h]) else .isFalse (by simp [h])
  | .error _, .ok _ => .isFalse (by simp)
  | .ok _, .error _ => .isFalse (by simp)

/-- A parser: consumes a prefix of the stream, yielding a value and the
remaining bytes, or a decode error. -/
abbrev P (α : Type) := Bytes → Except DecodeErr (α × Bytes)

/-- Sequencing of parsers (the Go code's sequential reads with early return
on error). -/
def pBind {α β : Type} (p : P α) (f : α → P β) : P β := fun s =>
  match p s with
  | .error e => .error e
  | .ok (a, s') => f a s'

/-- The parser returning `a` without consuming input. -/
def pPure {α : Type} (a : α) : P α := fun s => .ok (a, s)

/-- Read exactly `n` bytes as a parser; truncation is a decode error. -/
def readFull (n : Nat) : P Bytes := fun s =>
  match readN n s with
  | none => .error .truncated
  | some (bs, r) => .ok (bs, r)

/-- Read a varint as a parser; truncation is a decode error. -/
def pReadUvarint : P Nat := fun s =>
  match readUvarint s with
  | none => .error .truncated
  | some (n, r) => .ok (n, r)

/-- Modelled from the spec: `blockchain.ReadBytes` — a varint byte length,
checked against the field's cap (`FieldTooLarge` beyond it), then that many
raw bytes. -/
def readBytes (max : Nat) : P Bytes := fun s =>
  match readUvarint s with
  | none => .error .truncated
  | some (n, s') =>
    if max < n then .error .fieldTooLarge
    else
      match readN n s' with
      | none => .error .truncated
      | some (bs, r) => .ok (bs, r)

/-- Modelled from the spec: `blockchain.WriteBytes` — a varint byte length
followed by the raw bytes. -/
def writeBytes (data : Bytes) : Bytes := writeUvarint data.length ++ data

/-! ### Digests

`golang.org/x/crypto/sha3` and the repository's `fastHash` are outside
`src/`.  The claims proved below depend only on the digests being
deterministic functions of their input bytes (and on distinguishing the
concrete inputs probed by the counterexamples), never on the internals of
Keccak, so SHA3-256 is modelled as a fixed deterministic 32-byte-wide
digest stand-in. -/

/-- Serialize a natural number into `w` little-endian bytes. -/
def natToBytesLE : Nat → Nat → Bytes
  | 0, _ => []
  | w + 1, v => v % 256 :: natToBytesLE w (v / 256)

/-- Modelled from the spec: SHA3-256 ("Keccak, NIST-finalized variant",
from `golang.org/x/crypto/sha3`, outside `src/`), modelled as a fixed
deterministic digest producing 32 bytes. -/
def sha3_256 (l : Bytes) : Bytes :=
  natToBytesLE 32 (l.foldl (fun acc b => (acc * 1099511628211 + b + 1) % 2 ^ 256) 14695981039346656037)

/-- Modelled from the spec: `fastHash` (outside `src/`) — the
conditional-field digest: "a fast, non-cryptographic, fixed-width hash with
a defined all-zero-input sentinel"; the empty input renders as the empty
(absent) digest, any other input as its fixed-width digest. -/
def fastHash (d : Bytes) : Bytes :=
  if d.isEmpty then [] else sha3_256 d

/-- The all-zero 32-byte hash (`Hash{}` in Go): the "absent / no
commitment" sentinel. -/
def zeroHash : Bytes := List.replicate 32 0

/-! ### Data model (from `src/unnamed/part_000`) -/

/-- CurrentTransactionVersion is the current latest supported transaction
version. -/
def CurrentTransactionVersion : Nat := 1

/-- InvalidOutputIndex indicates issuance transaction. -/
def InvalidOutputIndex : Nat := 0xffffffff

def VMVersion : Nat := 1

def assetDefinitionMaxByteLength : Nat := 5000000

def metadataMaxByteLength : Nat := 500000

/-- Serialization flags (wire protocol). -/
def SerWitness : Nat := 1

def SerPrevout : Nat := 2

def SerMetadata : Nat := 4

/-- Bit mask for accepted serialization flags. -/
def SerValid : Nat := 0x7

/-- The only supported combination of flags on the wire. -/
def serRequired : Nat := 0x7

/-- Outpoint: a previous-transaction-output reference. -/
structure Outpoint where
  Hash : Bytes
  Index : Nat
deriving DecidableEq

/-- AssetAmount: asset identifier plus quantity. -/
structure AssetAmount where
  AssetID : Bytes
  Amount : Nat
deriving DecidableEq

/-- TxInput encodes a single input in a transaction. -/
structure TxInput where
  Previous : Outpoint
  AssetAmount : AssetAmount
  PrevScript : Bytes
  SignatureScript : Bytes
  Metadata : Bytes
  AssetDefinition : Bytes
deriving DecidableEq

/-- OutputCommitment: the versioned economic payload of an output. -/
structure OutputCommitment where
  AssetAmount : AssetAmount
  VMVersion : Nat
  ControlProgram : Bytes
deriving DecidableEq

/-- TxOutput: one transaction output. -/
structure TxOutput where
  AssetVersion : Nat
  OutputCommitment : OutputCommitment
  ReferenceData : Bytes
deriving DecidableEq

/-- TxData encodes a transaction in the blockchain. -/
structure TxData where
  SerFlags : Nat
  Version : Nat
  Inputs : List TxInput
  Outputs : List TxOutput
  MinTime : Nat
  MaxTime : Nat
  Metadata : Bytes
deriving DecidableEq

/-- Tx holds a transaction along with its hash. -/
structure Tx where
  TxData : TxData
  Hash : Bytes
  Stored : Bool
deriving DecidableEq

/-- IsIssuance returns true if input's index is 0xffffffff. -/
def TxInput.IsIssuance (ti : TxInput) : Bool :=
  ti.Previous.Index == InvalidOutputIndex

/-- HasIssuance returns true if this transaction has an issuance input. -/
def TxData.HasIssuance (tx : TxData) : Bool :=
  tx.Inputs.any fun i => i.IsIssuance

/-! ### Encoding (write side, from `src/unnamed/part_000`) -/

/-- The function `writeMetadata`: write the raw bytes when the metadata flag is set in
`serflags`, else write the field's `fastHash` digest (length-prefixed
either way). -/
def writeMetadata (data : Bytes) (serflags : Nat) : Bytes :=
  if Nat.land serflags SerMetadata ≠ 0 then writeBytes data
  else writeBytes (fastHash data)

/-- The function `Outpoint.WriteTo`: the 32-byte hash followed by the varint index. -/
def Outpoint.WriteTo (p : Outpoint) : Bytes :=
  p.Hash ++ writeUvarint p.Index

/-- The function `AssetAmount.writeTo`: the 32-byte asset id followed by the varint
amount. -/
def AssetAmount.writeTo (a : AssetAmount) : Bytes :=
  a.AssetID ++ writeUvarint a.Amount

/-- The function `TxInput.writeTo`: outpoint; asset amount and prev script only in
prevout mode; signature script in witness mode (an empty field otherwise);
metadata and asset definition under conditional rendering. -/
def TxInput.writeTo (ti : TxInput) (serflags : Nat) : Bytes :=
  ti.Previous.WriteTo ++
  (if Nat.land serflags SerPrevout ≠ 0 then
    ti.AssetAmount.writeTo ++ writeBytes ti.PrevScript
  else []) ++
  (if Nat.land serflags SerWitness ≠ 0 then writeBytes ti.SignatureScript
  else writeBytes []) ++
  writeMetadata ti.Metadata serflags ++
  writeMetadata ti.AssetDefinition serflags

/-- The function `OutputCommitment.writeTo`: a length-prefixed envelope holding
{asset amount, vm version, control program} when the asset version is 1,
empty otherwise. -/
def OutputCommitment.writeTo (oc : OutputCommitment) (assetVersion : Nat) : Bytes :=
  writeBytes
    (if assetVersion = 1 then
      oc.AssetAmount.writeTo ++ writeUvarint oc.VMVersion ++ writeBytes oc.ControlProgram
    else [])

/-- The function `TxOutput.writeTo`: asset version, commitment envelope, reference data
under conditional rendering, and the (empty) output witness. -/
def TxOutput.writeTo (o : TxOutput) (serflags : Nat) : Bytes :=
  writeUvarint o.AssetVersion ++
  o.OutputCommitment.writeTo o.AssetVersion ++
  writeMetadata o.ReferenceData serflags ++
  writeBytes []

/-- The function `TxData.writeTo`: serflags byte, version, inputs with count, outputs
with count, min/max time, transaction-level metadata. -/
def TxData.writeTo (tx : TxData) (serflags : Nat) : Bytes :=
  [serflags] ++
  writeUvarint tx.Version ++
  writeUvarint tx.Inputs.length ++
  (tx.Inputs.map fun ti => ti.writeTo serflags).flatten ++
  writeUvarint tx.Outputs.length ++
  (tx.Outputs.map fun o => o.writeTo serflags).flatten ++
  writeUvarint tx.MinTime ++
  writeUvarint tx.MaxTime ++
  writeMetadata tx.Metadata serflags

/-- The function `TxData.WriteTo`: the wire encoding, always with the full required flag
set. -/
def TxData.WriteTo (tx : TxData) : Bytes :=
  tx.writeTo serRequired

/-- The function `TxData.Hash`: the canonical transaction hash — SHA3-256 of the
serflags-0 rendering (every conditional field replaced by its digest). -/
def TxData.Hash (tx : TxData) : Bytes :=
  sha3_256 (tx.writeTo 0)

/-- The function `TxData.WitnessHash`: SHA3-256 of the transaction hash concatenated
with the digest of the input count and each input's signature-script
digest. -/
def TxData.WitnessHash (tx : TxData) : Bytes :=
  sha3_256 (tx.Hash ++
    sha3_256 (writeUvarint tx.Inputs.length ++
      (tx.Inputs.map fun i => sha3_256 i.SignatureScript).flatten))

/-- The function `NewTx` returns a new Tx containing data and its hash. -/
def NewTx (data : TxData) : Tx :=
  { TxData := data, Hash := data.Hash, Stored := false }

/-! ### Decoding (read side, from `src/unnamed/part_000`)

The Go decoders read from a sticky-error reader; the model is fail-fast
(the first failing read aborts the decode), which agrees with the Go code
on every stream a claim probes: once a read fails, every later checked
read fails too and no `TxData` is produced. -/

/-- The function `Outpoint.readFrom`: 32-byte hash, then varint index truncated to
uint32. -/
def Outpoint.readFrom : P Outpoint :=
  pBind (readFull 32) fun h =>
  pBind pReadUvarint fun idx =>
  pPure { Hash := h, Index := idx % 2 ^ 32 }

/-- The function `AssetAmount.readFrom`: 32-byte asset id, then varint amount. -/
def AssetAmount.readFrom : P AssetAmount :=
  pBind (readFull 32) fun aid =>
  pBind pReadUvarint fun amt =>
  pPure { AssetID := aid, Amount := amt }

/-- The function `TxInput.readFrom`: outpoint, asset amount, then the four
length-prefixed fields with their caps.  `scriptMaxByteLength` is not under
`src/`; the cap is passed as a parameter. -/
def TxInput.readFrom (scriptMax : Nat) : P TxInput :=
  pBind Outpoint.readFrom fun prev =>
  pBind AssetAmount.readFrom fun aa =>
  pBind (readBytes scriptMax) fun prevScript =>
  pBind (readBytes scriptMax) fun sigScript =>
  pBind (readBytes metadataMaxByteLength) fun md =>
  pBind (readBytes assetDefinitionMaxByteLength) fun ad =>
  pPure { Previous := prev, AssetAmount := aa, PrevScript := prevScript,
          SignatureScript := sigScript, Metadata := md, AssetDefinition := ad }

/-- The zero value a fresh Go `OutputCommitment` holds when the asset
version is unrecognized and the envelope is skipped. -/
def OutputCommitment.zero : OutputCommitment :=
  { AssetAmount := { AssetID := List.replicate 32 0, Amount := 0 },
    VMVersion := 0, ControlProgram := [] }

/-- The function `OutputCommitment.readFrom`: read the length-prefixed envelope
(`commitmentMaxByteLength` is not under `src/`; passed as a parameter);
when the asset version is 1, parse {asset amount, vm version, control
program} out of the envelope, discarding any trailing envelope bytes;
any other version leaves the zero value. -/
def OutputCommitment.readFrom (scriptMax commitmentMax : Nat) (assetVersion : Nat) :
    P OutputCommitment := fun s =>
  match readBytes commitmentMax s with
  | .error e => .error e
  | .ok (b, rest) =>
    if assetVersion ≠ 1 then .ok (OutputCommitment.zero, rest)
    else
      match
        (pBind AssetAmount.readFrom fun aa =>
         pBind pReadUvarint fun vmv =>
         pBind (readBytes scriptMax) fun cp =>
         pPure { AssetAmount := aa, VMVersion := vmv % 2 ^ 32,
                 ControlProgram := cp }) b with
      | .error e => .error e
      | .ok (oc, _) => .ok (oc, rest)

/-- The function `TxOutput.readFrom`: asset version (truncated to uint32), commitment
envelope, reference data, and the discarded output witness. -/
def TxOutput.readFrom (scriptMax commitmentMax : Nat) : P TxOutput :=
  pBind pReadUvarint fun av =>
  pBind (OutputCommitment.readFrom scriptMax commitmentMax (av % 2 ^ 32)) fun oc =>
  pBind (readBytes metadataMaxByteLength) fun refData =>
  pBind (readBytes commitmentMax) fun _ =>
  pPure { AssetVersion := av % 2 ^ 32, OutputCommitment := oc,
          ReferenceData := refData }

/-- Run parser `p` exactly `n` times, collecting the results in order (the
decode loops over input/output counts). -/
def readList {α : Type} (p : P α) : Nat → P (List α)
  | 0 => pPure []
  | n + 1 =>
    pBind p fun a =>
    pBind (readList p n) fun as =>
    pPure (a :: as)

/-- The function `TxData.readFrom`: serflags byte (must equal `serRequired`, else an
unsupported-serflags error), version, counted inputs, counted outputs,
min/max time, metadata.  Inputs and outputs are appended to the receiver's
lists, as the Go code appends to `tx.Inputs`/`tx.Outputs`. -/
def TxData.readFrom (scriptMax commitmentMax : Nat) (tx : TxData) : P TxData := fun s =>
  match s with
  | [] => .error .truncated
  | b :: rest =>
    if b ≠ serRequired then .error (.unsupportedFlags b)
    else
      (pBind pReadUvarint fun v =>
       pBind pReadUvarint fun nIn =>
       pBind (readList (TxInput.readFrom scriptMax) nIn) fun ins =>
       pBind pReadUvarint fun nOut =>
       pBind (readList (TxOutput.readFrom scriptMax commitmentMax) nOut) fun outs =>
       pBind pReadUvarint fun minT =>
       pBind pReadUvarint fun maxT =>
       pBind (readBytes metadataMaxByteLength) fun md =>
       pPure { SerFlags := b, Version := v % 2 ^ 32,
               Inputs := tx.Inputs ++ ins, Outputs := tx.Outputs ++ outs,
               MinTime := minT, MaxTime := maxT, Metadata := md }) rest

/-- A fresh zero `TxData` (the Go zero value a decode starts from). -/
def emptyTxData : TxData :=
  { SerFlags := 0, Version := 0, Inputs := [], Outputs := [],
    MinTime := 0, MaxTime := 0, Metadata := [] }

/-- The function `decode`: run `TxData.readFrom` on a fresh transaction. -/
def decode (scriptMax commitmentMax : Nat) : P TxData :=
  TxData.readFrom scriptMax commitmentMax emptyTxData

/-! ### Hex text form

`encoding/hex` is the Go standard library, outside `src/`.  Modelled from
the spec: "Text form: lowercase hexadecimal of the full (serflags = 0x07)
binary encoding"; decoding rejects odd-length input and non-hex digits. -/

/-- Value of one ASCII hex digit, or `none`. -/
def hexDigit (c : Nat) : Option Nat :=
  if 48 ≤ c ∧ c ≤ 57 then some (c - 48)
  else if 97 ≤ c ∧ c ≤ 102 then some (c - 87)
  else if 65 ≤ c ∧ c ≤ 70 then some (c - 55)
  else none

/-- Modelled from the spec: hex text decoding — pairs of hex digits become
bytes; odd length or a non-hex digit is an error. -/
def hexDecode : Bytes → Option Bytes
  | [] => some []
  | [_] => none
  | c1 :: c2 :: rest =>
    match hexDigit c1, hexDigit c2, hexDecode rest with
    | some hi, some lo, some bs => some ((16 * hi + lo) :: bs)
    | _, _, _ => none

/-- One ASCII lowercase hex digit for a value below 16. -/
def hexDigitChar (v : Nat) : Nat :=
  if v < 10 then v + 48 else v + 87

/-- Modelled from the spec: hex text encoding, lowercase. -/
def hexEncode (bs : Bytes) : Bytes :=
  (bs.map fun b => [hexDigitChar (b / 16), hexDigitChar (b % 16)]).flatten

/-- The function `TxData.MarshalText`: hex of the full wire encoding. -/
def TxData.MarshalText (tx : TxData) : Bytes :=
  hexEncode tx.WriteTo

/-- The function `TxData.UnmarshalText`: hex-decode, then `readFrom` into the receiver;
bytes left over after the transaction are ignored (the Go reader is simply
not drained). -/
def TxData.UnmarshalText (scriptMax commitmentMax : Nat) (tx : TxData) (p : Bytes) :
    Except DecodeErr TxData :=
  match hexDecode p with
  | none => .error .invalidHex
  | some b =>
    match TxData.readFrom scriptMax commitmentMax tx b with
    | .error e => .error e
    | .ok (td, _) => .ok td

/-- The function `Tx.UnmarshalText`: unmarshal the TxData, then recompute and store the
hash. -/
def Tx.UnmarshalText (scriptMax commitmentMax : Nat) (tx : Tx) (p : Bytes) :
    Except DecodeErr Tx :=
  match TxData.UnmarshalText scriptMax commitmentMax tx.TxData p with
  | .error e => .error e
  | .ok td => .ok { TxData := td, Hash := td.Hash, Stored := tx.Stored }

/-! ### Signature-hash engine (from `src/unnamed/part_000`)

The `SigHashType` constants live outside `src/`.  Modelled from the spec:
"hashType = one of {ALL, NONE, SINGLE} optionally combined with
ANYONECANPAY" — the Bitcoin-style values the switch on
`hashType & sigHashMask` discriminates. -/

/-- Modelled from the spec: the ALL base signature-hash type. -/
def SigHashAll : Nat := 1

/-- Modelled from the spec: the NONE base signature-hash type. -/
def SigHashNone : Nat := 2

/-- Modelled from the spec: the SINGLE base signature-hash type. -/
def SigHashSingle : Nat := 3

/-- Modelled from the spec: the ANYONECANPAY modifier bit. -/
def SigHashAnyOneCanPay : Nat := 0x80

/-- Modelled from the spec: the mask extracting the base type. -/
def sigHashMask : Nat := 0x1f

/-- The function `SigHasher.getInputsHash` (the memoized midstate, as the pure function
it computes): digest of the input count and every input's canonical
(serflags-0) encoding. -/
def SigHasher.getInputsHash (tx : TxData) : Bytes :=
  sha3_256 (writeUvarint tx.Inputs.length ++
    (tx.Inputs.map fun ti => ti.writeTo 0).flatten)

/-- The function `SigHasher.getAllOutputsHash` (the memoized midstate, as the pure
function it computes): digest of the output count and every output's
canonical encoding. -/
def SigHasher.getAllOutputsHash (tx : TxData) : Bytes :=
  sha3_256 (writeUvarint tx.Outputs.length ++
    (tx.Outputs.map fun o => o.writeTo 0).flatten)

/-- The inputsHash contribution in `SigHasher.Hash`: the all-zero hash
under ANYONECANPAY, else the memoized inputs midstate. -/
def SigHasher.inputsHashContribution (tx : TxData) (hashType : Nat) : Bytes :=
  if Nat.land hashType SigHashAnyOneCanPay = 0 then SigHasher.getInputsHash tx
  else zeroHash

/-- The outputCommitment contribution in `SigHasher.Hash`: empty for an
issuance input, else {asset id, amount, fixed VM version, prev script}. -/
def sigHashOutputCommitment (ti : TxInput) : Bytes :=
  if ti.IsIssuance then []
  else
    ti.AssetAmount.AssetID ++
    writeUvarint ti.AssetAmount.Amount ++
    writeUvarint VMVersion ++
    writeBytes ti.PrevScript

/-- The outputsHash contribution in `SigHasher.Hash`, by base type:
ALL — the memoized outputs midstate; NONE — the all-zero hash; SINGLE —
the all-zero hash beyond the output range, else a digest of output `idx`
alone with count 1.  The Go switch has no default: an unrecognized base
type leaves a nil pointer (a panic at use), modelled as `none`. -/
def sigHashOutputsHashContribution (tx : TxData) (idx : Nat) (hashType : Nat) :
    Option Bytes :=
  if Nat.land hashType sigHashMask = SigHashAll then
    some (SigHasher.getAllOutputsHash tx)
  else if Nat.land hashType sigHashMask = SigHashNone then
    some zeroHash
  else if Nat.land hashType sigHashMask = SigHashSingle then
    some (if lt : idx < tx.Outputs.length then
            sha3_256 (writeUvarint 1 ++ (tx.Outputs.get ⟨idx, lt⟩).writeTo 0)
          else zeroHash)
  else none

/-- The function `SigHasher.Hash`: the per-input signature hash.  The index must be in
range (a Go panic otherwise, hence the bound hypothesis); an unrecognized
base hash type is `none` (a Go nil-pointer panic). -/
def SigHasher.Hash (tx : TxData) (idx : Nat) (hashType : Nat)
    (h : idx < tx.Inputs.length) : Option Bytes :=
  (sigHashOutputsHashContribution tx idx hashType).map fun outputsHash =>
    sha3_256 (writeUvarint tx.Version ++
      SigHasher.inputsHashContribution tx hashType ++
      (tx.Inputs.get ⟨idx, h⟩).writeTo 0 ++
      writeBytes (sigHashOutputCommitment (tx.Inputs.get ⟨idx, h⟩)) ++
      outputsHash ++
      writeUvarint tx.MinTime ++
      writeUvarint tx.MaxTime ++
      writeMetadata tx.Metadata 0 ++
      [hashType % 256])

/-! ### Well-formedness

The bounds a Go value of these types satisfies by construction (fixed
32-byte arrays, uint32/uint64 fields) together with the spec's field
length caps; claim C4's "well-formed TxData". -/

/-- A well-formed Outpoint: 32-byte hash, uint32 index. -/
def Outpoint.WellFormed (p : Outpoint) : Prop :=
  p.Hash.length = 32 ∧ p.Index < 2 ^ 32

/-- A well-formed AssetAmount: 32-byte asset id (`Amount` is a uint64 and
round-trips as a varint without any bound). -/
def AssetAmount.WellFormed (a : AssetAmount) : Prop :=
  a.AssetID.length = 32

/-- A well-formed TxInput: well-formed components and every length-capped
field within its cap. -/
def TxInput.WellFormed (scriptMax : Nat) (ti : TxInput) : Prop :=
  ti.Previous.WellFormed ∧ ti.AssetAmount.WellFormed ∧
  ti.PrevScript.length ≤ scriptMax ∧
  ti.SignatureScript.length ≤ scriptMax ∧
  ti.Metadata.length ≤ metadataMaxByteLength ∧
  ti.AssetDefinition.length ≤ assetDefinitionMaxByteLength

/-- The version-1 envelope bytes of an output commitment. -/
def OutputCommitment.envelope (oc : OutputCommitment) : Bytes :=
  oc.AssetAmount.writeTo ++ writeUvarint oc.VMVersion ++ writeBytes oc.ControlProgram

/-- A well-formed OutputCommitment: well-formed asset amount, uint32 VM
version, capped control program, and an envelope within the commitment
cap. -/
def OutputCommitment.WellFormed (scriptMax commitmentMax : Nat) (oc : OutputCommitment) : Prop :=
  oc.AssetAmount.WellFormed ∧ oc.VMVersion < 2 ^ 32 ∧
  oc.ControlProgram.length ≤ scriptMax ∧
  oc.envelope.length ≤ commitmentMax

/-- A well-formed TxOutput: asset version 1, well-formed commitment,
capped reference data. -/
def TxOutput.WellFormed (scriptMax commitmentMax : Nat) (o : TxOutput) : Prop :=
  o.AssetVersion = 1 ∧
  o.OutputCommitment.WellFormed scriptMax commitmentMax ∧
  o.ReferenceData.length ≤ metadataMaxByteLength

/-- A well-formed TxData: wire serflags, uint32 version, well-formed
inputs and outputs, capped metadata. -/
def TxData.WellFormed (scriptMax commitmentMax : Nat) (tx : TxData) : Prop :=
  tx.SerFlags = 0x7 ∧ tx.Version < 2 ^ 32 ∧
  (∀ ti ∈ tx.Inputs, ti.WellFormed scriptMax) ∧
  (∀ o ∈ tx.Outputs, o.WellFormed scriptMax commitmentMax) ∧
  tx.Metadata.length ≤ metadataMaxByteLength

/-! ### Concrete fixtures for witnesses and counterexamples -/

/-- A concrete spend input. -/
def sampleInput : TxInput :=
  { Previous := { Hash := List.replicate 32 1, Index := 0 },
    AssetAmount := { AssetID := List.replicate 32 2, Amount := 100 },
    PrevScript := [9], SignatureScript := [1, 2], Metadata := [3],
    AssetDefinition := [4] }

/-- A concrete issuance input (index `0xffffffff`). -/
def sampleIssuanceInput : TxInput :=
  { Previous := { Hash := List.replicate 32 0, Index := 0xffffffff },
    AssetAmount := { AssetID := List.replicate 32 0, Amount := 0 },
    PrevScript := [], SignatureScript := [], Metadata := [],
    AssetDefinition := [] }

/-- A concrete version-1 output. -/
def sampleOutput : TxOutput :=
  { AssetVersion := 1,
    OutputCommitment :=
      { AssetAmount := { AssetID := List.replicate 32 0, Amount := 100 },
        VMVersion := 1, ControlProgram := [] },
    ReferenceData := [7] }

/-- A concrete transaction with one input and one output. -/
def sampleTx : TxData :=
  { SerFlags := 0x7, Version := 1, Inputs := [sampleInput],
    Outputs := [sampleOutput], MinTime := 0, MaxTime := 0, Metadata := [5] }

/-- The ASCII hex text `"07000000000000"`: the marshalled form of the
minimal transaction (serflags 7, version 0, no inputs or outputs, zero
times, empty metadata). -/
def sampleHexTx : Bytes :=
  [48, 55, 48, 48, 48, 48, 48, 48, 48, 48, 48, 48, 48, 48]

/-- The `Tx` that unmarshalling `sampleHexTx` produces. -/
def sampleDecodedTx : Tx :=
  { TxData := { emptyTxData with SerFlags := 0x7 },
    Hash := TxData.Hash { emptyTxData with SerFlags := 0x7 },
    Stored := false }

/-! ### Primitive codec lemmas -/

/-- The fuel argument of `writeUvarintAux` is irrelevant once it dominates
the value. -/
theorem writeUvarintAux_congr (n : Nat) :
    ∀ fuel fuel', n ≤ fuel → n ≤ fuel' →
      writeUvarintAux fuel n = writeUvarintAux fuel' n := by
  induction n using Nat.strong_induction_on with
  | _ n ih =>
    intro fuel fuel' h h'
    match fuel, fuel' with
    | 0, 0 => rfl
    | 0, f' + 1 =>
      have hz : n = 0 := Nat.le_zero.mp h
      subst hz
      simp [writeUvarintAux]
    | f + 1, 0 =>
      have hz : n = 0 := Nat.le_zero.mp h'
      subst hz
      simp [writeUvarintAux]
    | f + 1, f' + 1 =>
      simp only [writeUvarintAux]
      by_cases hn : n < 128
      · simp [hn]
      · rw [if_neg hn, if_neg hn]
        have hdiv : n / 128 < n := Nat.div_lt_self (by omega) (by decide)
        rw [ih (n / 128) hdiv f f' (by omega) (by omega)]

/-- The recursive unfolding of `writeUvarint`. -/
theorem writeUvarint_eq (n : Nat) :
    writeUvarint n =
      if n < 128 then [n] else (n % 128 + 128) :: writeUvarint (n / 128) := by
  unfold writeUvarint
  match n with
  | 0 => simp [writeUvarintAux]
  | k + 1 =>
    simp only [writeUvarintAux]
    by_cases h : k + 1 < 128
    · simp [h]
    · rw [if_neg h, if_neg h]
      have hdiv : (k + 1) / 128 < k + 1 := Nat.div_lt_self (by omega) (by decide)
      rw [writeUvarintAux_congr ((k + 1) / 128) k ((k + 1) / 128) (by omega) (Nat.le_refl _)]

/-- Varint round trip: decoding the encoding of `n` yields `n` and leaves
the rest of the stream untouched. -/
theorem readUvarint_writeUvarint (n : Nat) (rest : Bytes) :
    readUvarint (writeUvarint n ++ rest) = some (n, rest) := by
  induction n using Nat.strong_induction_on generalizing rest with
  | _ n ih =>
    rw [writeUvarint_eq]
    by_cases h : n < 128
    · simp [h, readUvarint]
    · rw [if_neg h]
      have hdiv : n / 128 < n := Nat.div_lt_self (by omega) (by decide)
      simp only [List.cons_append, readUvarint, List.append_eq]
      rw [if_neg (by omega)]
      rw [ih (n / 128) hdiv rest]
      simp only [Option.some.injEq, Prod.mk.injEq]
      refine ⟨?_, trivial⟩
      rw [Nat.add_mod_right]
      rw [Nat.mod_mod_of_dvd n (dvd_refl 128)]
      exact Nat.mod_add_div n 128

theorem pReadUvarint_writeUvarint (n : Nat) (rest : Bytes) :
    pReadUvarint (writeUvarint n ++ rest) = .ok (n, rest) := by
  simp [pReadUvarint, readUvarint_writeUvarint]

/-- Reading back exactly the bytes just laid down. -/
theorem readN_append (xs rest : Bytes) :
    readN xs.length (xs ++ rest) = some (xs, rest) := by
  induction xs with
  | nil => rfl
  | cons b bs ih => simp [readN, ih]

theorem readFull_append {n : Nat} (xs : Bytes) (h : xs.length = n) (rest : Bytes) :
    readFull n (xs ++ rest) = .ok (xs, rest) := by
  subst h
  simp [readFull, readN_append]

/-- Length-prefixed round trip, under the cap. -/
theorem readBytes_writeBytes {cap : Nat} (data : Bytes) (h : data.length ≤ cap)
    (rest : Bytes) : readBytes cap (writeBytes data ++ rest) = .ok (data, rest) := by
  simp only [readBytes, writeBytes, List.append_assoc, readUvarint_writeUvarint]
  rw [if_neg (by omega), readN_append]

/-- A declared length beyond the cap is a `fieldTooLarge` error, whatever
follows. -/
theorem readBytes_fieldTooLarge {cap : Nat} (n : Nat) (h : cap < n) (s : Bytes) :
    readBytes cap (writeUvarint n ++ s) = .error .fieldTooLarge := by
  simp only [readBytes, readUvarint_writeUvarint]
  rw [if_pos h]

theorem pBind_ok {α β : Type} {p : P α} {f : α → P β} {s : Bytes} {a : α} {s' : Bytes}
    (h : p s = .ok (a, s')) : pBind p f s = f a s' := by
  simp [pBind, h]

theorem pPure_apply {α : Type} (a : α) (s : Bytes) : pPure a s = .ok (a, s) := rfl

theorem pBind_error {α β : Type} {p : P α} {f : α → P β} {s : Bytes} {e : DecodeErr}
    (h : p s = .error e) : pBind p f s = .error e := by
  simp [pBind, h]

/-! ### Conditional rendering at the two flag values -/

/-- With the metadata flag set (wire mode), the raw bytes are written. -/
theorem writeMetadata_serRequired (data : Bytes) :
    writeMetadata data serRequired = writeBytes data := by
  unfold writeMetadata
  rw [if_pos (show Nat.land serRequired SerMetadata ≠ 0 by decide)]

/-- With serflags 0 (hash rendering), the field's digest is written. -/
theorem writeMetadata_zero (data : Bytes) :
    writeMetadata data 0 = writeBytes (fastHash data) := by
  unfold writeMetadata
  rw [if_neg (show ¬Nat.land 0 SerMetadata ≠ 0 by decide)]

/-- The wire (serflags `0x7`) rendering of an input: every field raw. -/
theorem txInputWriteTo_serRequired (ti : TxInput) :
    ti.writeTo serRequired =
      ti.Previous.WriteTo ++
      (ti.AssetAmount.writeTo ++ writeBytes ti.PrevScript) ++
      writeBytes ti.SignatureScript ++
      writeBytes ti.Metadata ++
      writeBytes ti.AssetDefinition := by
  unfold TxInput.writeTo
  rw [if_pos (show Nat.land serRequired SerPrevout ≠ 0 by decide),
      if_pos (show Nat.land serRequired SerWitness ≠ 0 by decide),
      writeMetadata_serRequired, writeMetadata_serRequired]

/-- The hash (serflags 0) rendering of an input: no prevout data, an empty
signature-script field, digests for metadata and asset definition.  The
rendering does not depend on `AssetAmount`, `PrevScript`, or
`SignatureScript` at all. -/
theorem txInputWriteTo_zero (ti : TxInput) :
    ti.writeTo 0 =
      ti.Previous.WriteTo ++
      writeBytes [] ++
      writeBytes (fastHash ti.Metadata) ++
      writeBytes (fastHash ti.AssetDefinition) := by
  unfold TxInput.writeTo
  rw [if_neg (show ¬Nat.land 0 SerPrevout ≠ 0 by decide),
      if_neg (show ¬Nat.land 0 SerWitness ≠ 0 by decide),
      writeMetadata_zero, writeMetadata_zero]
  simp

/-- Two inputs with the same outpoint and the same metadata and
asset-definition digests have the same hash rendering. -/
theorem txInputWriteTo_zero_congr (ti ti' : TxInput)
    (hprev : ti'.Previous = ti.Previous)
    (hmd : fastHash ti'.Metadata = fastHash ti.Metadata)
    (had : fastHash ti'.AssetDefinition = fastHash ti.AssetDefinition) :
    ti'.writeTo 0 = ti.writeTo 0 := by
  rw [txInputWriteTo_zero, txInputWriteTo_zero, hprev, hmd, had]

/-- The hash (serflags 0) rendering of a whole transaction. -/
theorem txDataWriteTo_zero (tx : TxData) :
    tx.writeTo 0 =
      [0] ++
      writeUvarint tx.Version ++
      writeUvarint tx.Inputs.length ++
      (tx.Inputs.map fun ti => ti.writeTo 0).flatten ++
      writeUvarint tx.Outputs.length ++
      (tx.Outputs.map fun o => o.writeTo 0).flatten ++
      writeUvarint tx.MinTime ++
      writeUvarint tx.MaxTime ++
      writeBytes (fastHash tx.Metadata) := by
  unfold TxData.writeTo
  rw [writeMetadata_zero]

/-- Setting a list element to one with the same image under `f` leaves the
mapped list unchanged. -/
theorem map_set_of_eq {α β : Type} (f : α → β) (l : List α) (i : Nat) (a : α)
    (h : ∀ b, l[i]? = some b → f a = f b) :
    (l.set i a).map f = l.map f := by
  induction l generalizing i with
  | nil => simp
  | cons x xs ih =>
    cases i with
    | zero =>
      have hx : f a = f x := h x (by simp)
      simp [hx]
    | succ j =>
      simp only [List.set_cons_succ, List.map_cons, List.cons.injEq, true_and]
      exact ih j fun b hb => h b (by simpa using hb)

/-- The canonical hash is unchanged by replacing input `i` with an input
that keeps the outpoint and the metadata / asset-definition digests. -/
theorem TxData.Hash_set_input (tx : TxData) (i : Nat) (ti' : TxInput)
    (h : ∀ b, tx.Inputs[i]? = some b →
      ti'.Previous = b.Previous ∧ fastHash ti'.Metadata = fastHash b.Metadata ∧
      fastHash ti'.AssetDefinition = fastHash b.AssetDefinition) :
    TxData.Hash { tx with Inputs := tx.Inputs.set i ti' } = tx.Hash := by
  unfold TxData.Hash
  rw [txDataWriteTo_zero, txDataWriteTo_zero]
  dsimp only
  rw [List.length_set]
  rw [map_set_of_eq (fun ti => ti.writeTo 0) tx.Inputs i ti'
    (fun b hb =>
      txInputWriteTo_zero_congr b ti' (h b hb).1 (h b hb).2.1 (h b hb).2.2)]

/-- The canonical hash is unchanged by replacing the transaction-level
metadata with bytes of the same digest. -/
theorem TxData.Hash_metadata_congr (tx : TxData) (tm' : Bytes)
    (h : fastHash tm' = fastHash tx.Metadata) :
    TxData.Hash { tx with Metadata := tm' } = tx.Hash := by
  unfold TxData.Hash
  rw [txDataWriteTo_zero, txDataWriteTo_zero]
  dsimp only
  rw [h]

/-- An element retrieved through `getElem?` at an in-range index is the
`get` at that index. -/
theorem eq_get_of_getElem? {α : Type} (l : List α) (i : Nat) (hi : i < l.length)
    (b : α) (hb : l[i]? = some b) : b = l.get ⟨i, hi⟩ := by
  rw [List.getElem?_eq_getElem hi] at hb
  rw [List.get_eq_getElem]
  exact (Option.some.inj hb).symm

/-! ### Round-trip lemmas, component by component -/

theorem readBytes_writeBytes_nil {cap : Nat} (data : Bytes) (h : data.length ≤ cap) :
    readBytes cap (writeBytes data) = .ok (data, []) := by
  have h2 := readBytes_writeBytes data h []
  rwa [List.append_nil] at h2

theorem pReadUvarint_zero (s : Bytes) : pReadUvarint (0 :: s) = .ok (0, s) := rfl

theorem readList_zero {α : Type} (p : P α) (s : Bytes) :
    readList p 0 s = .ok ([], s) := rfl

theorem outpoint_roundtrip (p : Outpoint) (h : p.WellFormed) (rest : Bytes) :
    Outpoint.readFrom (p.WriteTo ++ rest) = .ok (p, rest) := by
  obtain ⟨h32, hidx⟩ := h
  unfold Outpoint.readFrom Outpoint.WriteTo
  rw [List.append_assoc]
  rw [pBind_ok (readFull_append p.Hash h32 _)]
  rw [pBind_ok (pReadUvarint_writeUvarint p.Index rest)]
  rw [pPure_apply, Nat.mod_eq_of_lt hidx]

theorem assetAmount_roundtrip (a : AssetAmount) (h : a.WellFormed) (rest : Bytes) :
    AssetAmount.readFrom (a.writeTo ++ rest) = .ok (a, rest) := by
  unfold AssetAmount.readFrom AssetAmount.writeTo
  rw [List.append_assoc]
  rw [pBind_ok (readFull_append a.AssetID h _)]
  rw [pBind_ok (pReadUvarint_writeUvarint a.Amount rest)]
  rw [pPure_apply]

theorem txInput_roundtrip (scriptMax : Nat) (ti : TxInput)
    (h : ti.WellFormed scriptMax) (rest : Bytes) :
    TxInput.readFrom scriptMax (ti.writeTo serRequired ++ rest) = .ok (ti, rest) := by
  obtain ⟨hp, ha, h1, h2, h3, h4⟩ := h
  rw [txInputWriteTo_serRequired]
  simp only [List.append_assoc]
  unfold TxInput.readFrom
  rw [pBind_ok (outpoint_roundtrip ti.Previous hp _)]
  rw [pBind_ok (assetAmount_roundtrip ti.AssetAmount ha _)]
  rw [pBind_ok (readBytes_writeBytes ti.PrevScript h1 _)]
  rw [pBind_ok (readBytes_writeBytes ti.SignatureScript h2 _)]
  rw [pBind_ok (readBytes_writeBytes ti.Metadata h3 _)]
  rw [pBind_ok (readBytes_writeBytes ti.AssetDefinition h4 _)]
  rw [pPure_apply]

theorem outputCommitment_roundtrip (scriptMax commitmentMax : Nat)
    (oc : OutputCommitment) (h : oc.WellFormed scriptMax commitmentMax)
    (rest : Bytes) :
    OutputCommitment.readFrom scriptMax commitmentMax 1 (oc.writeTo 1 ++ rest) =
      .ok (oc, rest) := by
  obtain ⟨ha, hvm, hcp, henv⟩ := h
  unfold OutputCommitment.envelope at henv
  unfold OutputCommitment.readFrom OutputCommitment.writeTo
  rw [if_pos rfl]
  rw [readBytes_writeBytes _ henv rest]
  dsimp only
  rw [if_neg (by decide)]
  rw [← List.append_nil (writeBytes oc.ControlProgram)]
  simp only [List.append_assoc]
  rw [pBind_ok (assetAmount_roundtrip oc.AssetAmount ha _)]
  rw [pBind_ok (pReadUvarint_writeUvarint oc.VMVersion _)]
  rw [pBind_ok (readBytes_writeBytes oc.ControlProgram hcp [])]
  rw [pPure_apply]
  dsimp only
  rw [Nat.mod_eq_of_lt hvm]

theorem txOutput_roundtrip (scriptMax commitmentMax : Nat) (o : TxOutput)
    (h : o.WellFormed scriptMax commitmentMax) (rest : Bytes) :
    TxOutput.readFrom scriptMax commitmentMax (o.writeTo serRequired ++ rest) =
      .ok (o, rest) := by
  obtain ⟨av, oc, rd⟩ := o
  obtain ⟨hv, hoc, href⟩ := h
  dsimp only at hv hoc href
  subst hv
  unfold TxOutput.writeTo TxOutput.readFrom
  dsimp only
  rw [writeMetadata_serRequired]
  simp only [List.append_assoc]
  rw [pBind_ok (pReadUvarint_writeUvarint 1 _)]
  rw [show (1 : Nat) % 2 ^ 32 = 1 from by decide]
  rw [pBind_ok (outputCommitment_roundtrip scriptMax commitmentMax oc hoc _)]
  rw [pBind_ok (readBytes_writeBytes rd href _)]
  rw [pBind_ok (readBytes_writeBytes [] (Nat.zero_le _) _)]
  rw [pPure_apply]

/-- Reading back a count of records laid down in sequence. -/
theorem readList_append {α : Type} (p : P α) (enc : α → Bytes) (l : List α) :
    ∀ (_henc : ∀ x ∈ l, ∀ r : Bytes, p (enc x ++ r) = .ok (x, r)) (rest : Bytes),
      readList p l.length ((l.map enc).flatten ++ rest) = .ok (l, rest) := by
  induction l with
  | nil =>
    intro _ rest
    simp [readList, pPure]
  | cons a as ih =>
    intro h rest
    simp only [List.map_cons, List.flatten_cons, List.length_cons, List.append_assoc]
    simp only [readList]
    rw [pBind_ok (h a (List.mem_cons_self a as) _)]
    rw [pBind_ok (ih (fun x hx r => h x (List.mem_cons_of_mem a hx) r) rest)]
    rw [pPure_apply]

/-- The full decode/encode round trip, leaving trailing bytes intact. -/
theorem txData_roundtrip (scriptMax commitmentMax : Nat) (tx : TxData)
    (h : tx.WellFormed scriptMax commitmentMax) (rest : Bytes) :
    decode scriptMax commitmentMax (tx.writeTo serRequired ++ rest) = .ok (tx, rest) := by
  obtain ⟨sf, v, ins, outs, minT, maxT, md⟩ := tx
  obtain ⟨hflags, hver, hins, houts, hmd⟩ := h
  dsimp only at hflags hver hins houts hmd
  subst hflags
  unfold TxData.writeTo
  dsimp only
  rw [writeMetadata_serRequired]
  simp only [List.append_assoc, List.cons_append, List.nil_append]
  unfold decode TxData.readFrom
  dsimp only
  rw [if_neg (by simp)]
  rw [pBind_ok (pReadUvarint_writeUvarint v _)]
  rw [pBind_ok (pReadUvarint_writeUvarint ins.length _)]
  rw [pBind_ok (readList_append _ _ ins
    (fun x hx r => txInput_roundtrip scriptMax x (hins x hx) r) _)]
  rw [pBind_ok (pReadUvarint_writeUvarint outs.length _)]
  rw [pBind_ok (readList_append _ _ outs
    (fun x hx r => txOutput_roundtrip scriptMax commitmentMax x (houts x hx) r) _)]
  rw [pBind_ok (pReadUvarint_writeUvarint minT _)]
  rw [pBind_ok (pReadUvarint_writeUvarint maxT _)]
  rw [pBind_ok (readBytes_writeBytes md hmd _)]
  rw [pPure_apply, Nat.mod_eq_of_lt hver]
  rfl

/-! ### Claim theorems -/

/-- C1: For every TxData `t`, `Hash t` equals the SHA3-256 digest of the
byte sequence produced by encoding `t` with serflags = 0 (the rendering in
which every conditional field is replaced by its digest form); being a Lean
function of `t` alone, it is deterministic and pure. -/
theorem txHash_eq_sha3_flags0 (tx : TxData) :
    tx.Hash = sha3_256 (tx.writeTo 0) := rfl

set_option maxRecDepth 100000 in
/-- C2 counterexample: two transactions differing only in the
transaction-level `Metadata` bytes have different canonical hashes — the
serflags-0 rendering commits to the metadata's `fastHash` digest, which
changes with the bytes. -/
theorem txHash_not_invariant_under_metadata_change :
    TxData.Hash { sampleTx with Metadata := [0] } ≠
      TxData.Hash { sampleTx with Metadata := [1] } := by decide

/-- C2 (amended): replacing the transaction-level Metadata bytes, or input
`i`'s Metadata or AssetDefinition bytes, leaves `Hash t` unchanged provided
the replacement bytes have the same `fastHash` digest as the originals
(only the digest is committed; bytes with a different digest change the
hash). -/
theorem txHash_invariant_under_equal_digest_replacement
    (tx : TxData) (i : Nat) (hi : i < tx.Inputs.length) (tm' mi' adi' : Bytes)
    (htm : fastHash tm' = fastHash tx.Metadata)
    (hmi : fastHash mi' = fastHash (tx.Inputs.get ⟨i, hi⟩).Metadata)
    (hadi : fastHash adi' = fastHash (tx.Inputs.get ⟨i, hi⟩).AssetDefinition) :
    TxData.Hash
      { tx with
        Metadata := tm',
        Inputs := tx.Inputs.set i
          { tx.Inputs.get ⟨i, hi⟩ with Metadata := mi', AssetDefinition := adi' } } =
      tx.Hash := by
  refine Eq.trans
    (TxData.Hash_metadata_congr
      { tx with
        Inputs := tx.Inputs.set i
          { tx.Inputs.get ⟨i, hi⟩ with Metadata := mi', AssetDefinition := adi' } }
      tm' htm) ?_
  refine TxData.Hash_set_input tx i _ (fun b hb => ?_)
  rw [eq_get_of_getElem? tx.Inputs i hi b hb]
  exact ⟨rfl, hmi, hadi⟩

/-- Witness for the amended C2 at a concrete transaction (replacement
bytes with the same digests: the originals themselves). -/
theorem txHash_invariant_under_equal_digest_replacement_witness :
    TxData.Hash
      { sampleTx with
        Metadata := [5],
        Inputs := sampleTx.Inputs.set 0
          { sampleTx.Inputs.get ⟨0, by decide⟩ with
            Metadata := [3], AssetDefinition := [4] } } =
      sampleTx.Hash :=
  txHash_invariant_under_equal_digest_replacement sampleTx 0 (by decide)
    [5] [3] [4] rfl rfl rfl

/-- C3: replacing any input's SignatureScript bytes, changing nothing
else, leaves the canonical transaction hash unchanged — the serflags-0
rendering writes an empty field in place of the signature script. -/
theorem txHash_invariant_under_sigscript_replacement
    (tx : TxData) (i : Nat) (hi : i < tx.Inputs.length) (s' : Bytes) :
    TxData.Hash
      { tx with
        Inputs := tx.Inputs.set i
          { tx.Inputs.get ⟨i, hi⟩ with SignatureScript := s' } } =
      tx.Hash := by
  refine TxData.Hash_set_input tx i _ (fun b hb => ?_)
  rw [eq_get_of_getElem? tx.Inputs i hi b hb]
  exact ⟨rfl, rfl, rfl⟩

/-- Witness for C3 at a concrete transaction and replacement script. -/
theorem txHash_invariant_under_sigscript_replacement_witness :
    TxData.Hash
      { sampleTx with
        Inputs := sampleTx.Inputs.set 0
          { sampleTx.Inputs.get ⟨0, by decide⟩ with SignatureScript := [9, 9] } } =
      sampleTx.Hash :=
  txHash_invariant_under_sigscript_replacement sampleTx 0 (by decide) [9, 9]

/-- C10: replacing any input's AssetAmount (asset id or amount) or
PrevScript, changing nothing else, leaves the canonical transaction hash
unchanged — the serflags-0 rendering omits the prevout fields entirely. -/
theorem txHash_invariant_under_prevout_replacement
    (tx : TxData) (i : Nat) (hi : i < tx.Inputs.length)
    (aa' : AssetAmount) (ps' : Bytes) :
    TxData.Hash
      { tx with
        Inputs := tx.Inputs.set i
          { tx.Inputs.get ⟨i, hi⟩ with AssetAmount := aa', PrevScript := ps' } } =
      tx.Hash := by
  refine TxData.Hash_set_input tx i _ (fun b hb => ?_)
  rw [eq_get_of_getElem? tx.Inputs i hi b hb]
  exact ⟨rfl, rfl, rfl⟩

/-- Witness for C10 at a concrete transaction, asset amount, and prev
script. -/
theorem txHash_invariant_under_prevout_replacement_witness :
    TxData.Hash
      { sampleTx with
        Inputs := sampleTx.Inputs.set 0
          { sampleTx.Inputs.get ⟨0, by decide⟩ with
            AssetAmount := { AssetID := List.replicate 32 9, Amount := 5 },
            PrevScript := [8] } } =
      sampleTx.Hash :=
  txHash_invariant_under_prevout_replacement sampleTx 0 (by decide)
    { AssetID := List.replicate 32 9, Amount := 5 } [8]

/-- C4: for a well-formed TxData (wire serflags `0x7`, every output of
asset version 1, every length-capped field within its cap, and the machine
integer bounds the Go types impose), decoding the bytes produced by
encoding with serflags `0x7` succeeds and reproduces the transaction field
for field, inputs and outputs in order, consuming the whole stream. -/
theorem decode_encode_roundtrip (scriptMax commitmentMax : Nat) (tx : TxData)
    (h : tx.WellFormed scriptMax commitmentMax) :
    decode scriptMax commitmentMax (tx.writeTo serRequired) = .ok (tx, []) := by
  have h2 := txData_roundtrip scriptMax commitmentMax tx h []
  rwa [List.append_nil] at h2

/-- Witness for C4 at a concrete one-input, one-output transaction. -/
theorem decode_encode_roundtrip_witness :
    sampleTx.WellFormed 10000 1000000 ∧
    decode 10000 1000000 (sampleTx.writeTo serRequired) = .ok (sampleTx, []) :=
  ⟨by
    unfold TxData.WellFormed TxInput.WellFormed TxOutput.WellFormed
      OutputCommitment.WellFormed Outpoint.WellFormed AssetAmount.WellFormed
      OutputCommitment.envelope
    decide,
   decode_encode_roundtrip 10000 1000000 sampleTx (by
    unfold TxData.WellFormed TxInput.WellFormed TxOutput.WellFormed
      OutputCommitment.WellFormed Outpoint.WellFormed AssetAmount.WellFormed
      OutputCommitment.envelope
    decide)⟩

/-- C8: with the minimal surrounding transaction, a transaction-level
metadata field declaring exactly 500,000 bytes (all present) decodes
successfully, while a declared length of 500,001 bytes fails with a
field-too-large decode error. -/
theorem metadata_cap_boundary (scriptMax commitmentMax : Nat) :
    decode scriptMax commitmentMax
      ([0x7, 0, 0, 0, 0, 0] ++ writeBytes (List.replicate 500000 0)) =
      .ok ({ SerFlags := 0x7, Version := 0, Inputs := [], Outputs := [],
             MinTime := 0, MaxTime := 0,
             Metadata := List.replicate 500000 0 }, []) ∧
    decode scriptMax commitmentMax
      ([0x7, 0, 0, 0, 0, 0] ++ (writeUvarint 500001 ++ List.replicate 500001 0)) =
      .error .fieldTooLarge := by
  constructor
  · unfold decode TxData.readFrom
    simp only [List.cons_append, List.nil_append]
    rw [if_neg (by decide)]
    rw [pBind_ok (pReadUvarint_zero _)]
    rw [pBind_ok (pReadUvarint_zero _)]
    rw [pBind_ok (readList_zero _ _)]
    rw [pBind_ok (pReadUvarint_zero _)]
    rw [pBind_ok (readList_zero _ _)]
    rw [pBind_ok (pReadUvarint_zero _)]
    rw [pBind_ok (pReadUvarint_zero _)]
    have hmd : (List.replicate 500000 (0 : Nat)).length ≤ metadataMaxByteLength := by
      rw [List.length_replicate]
      exact Nat.le_refl _
    rw [pBind_ok (readBytes_writeBytes_nil (List.replicate 500000 0) hmd)]
    rw [pPure_apply]
    rfl
  · unfold decode TxData.readFrom
    simp only [List.cons_append, List.nil_append]
    rw [if_neg (by decide)]
    rw [pBind_ok (pReadUvarint_zero _)]
    rw [pBind_ok (pReadUvarint_zero _)]
    rw [pBind_ok (readList_zero _ _)]
    rw [pBind_ok (pReadUvarint_zero _)]
    rw [pBind_ok (readList_zero _ _)]
    rw [pBind_ok (pReadUvarint_zero _)]
    rw [pBind_ok (pReadUvarint_zero _)]
    rw [pBind_error (readBytes_fieldTooLarge 500001 (by decide) _)]

/-- C5: `IsIssuance` holds exactly when the previous output index is
`0xffffffff`; and for an issuance input the signature-hash
outputCommitment contribution is the empty byte string, written as a
length-prefixed empty field (`[0]`). -/
theorem isIssuance_iff_and_empty_outputCommitment (ti : TxInput) :
    (ti.IsIssuance = true ↔ ti.Previous.Index = 0xffffffff) ∧
    (ti.IsIssuance = true →
      sigHashOutputCommitment ti = [] ∧
      writeBytes (sigHashOutputCommitment ti) = [0]) := by
  constructor
  · simp [TxInput.IsIssuance, InvalidOutputIndex]
  · intro h
    constructor
    · simp [sigHashOutputCommitment, h]
    · simp [sigHashOutputCommitment, h]
      rfl

/-- Witness for C5 at a concrete issuance input. -/
theorem isIssuance_iff_and_empty_outputCommitment_witness :
    sigHashOutputCommitment sampleIssuanceInput = [] ∧
    writeBytes (sigHashOutputCommitment sampleIssuanceInput) = [0] :=
  (isIssuance_iff_and_empty_outputCommitment sampleIssuanceInput).2 (by decide)

/-- C6: for an index at or beyond the output count, the SINGLE-based
outputsHash contribution is the all-zero hash, identical to the
contribution every NONE-based hash type uses. -/
theorem single_beyond_range_matches_none (tx : TxData) (idx ht ht' : Nat)
    (hS : Nat.land ht sigHashMask = SigHashSingle)
    (hN : Nat.land ht' sigHashMask = SigHashNone)
    (hidx : tx.Outputs.length ≤ idx) :
    sigHashOutputsHashContribution tx idx ht = some zeroHash ∧
    sigHashOutputsHashContribution tx idx ht' = some zeroHash := by
  constructor
  · unfold sigHashOutputsHashContribution
    rw [hS, if_neg (by decide), if_neg (by decide), if_pos rfl, dif_neg (by omega)]
  · unfold sigHashOutputsHashContribution
    rw [hN, if_neg (by decide), if_pos rfl]

/-- Witness for C6: one output, index 1, hash types SINGLE (3) and
NONE (2). -/
theorem single_beyond_range_matches_none_witness :
    sigHashOutputsHashContribution sampleTx 1 3 = some zeroHash ∧
    sigHashOutputsHashContribution sampleTx 1 2 = some zeroHash :=
  single_beyond_range_matches_none sampleTx 1 3 2 (by decide) (by decide) (by decide)

/-- C7: any stream whose first byte is not `0x7` fails to decode with an
unsupported-serflags error naming that byte, whatever the remaining bytes
are; no `TxData` is produced. -/
theorem decode_rejects_wrong_serflags (scriptMax commitmentMax b : Nat)
    (rest : Bytes) (hb : b ≠ 0x7) :
    decode scriptMax commitmentMax (b :: rest) = .error (.unsupportedFlags b) := by
  unfold decode TxData.readFrom
  dsimp only
  rw [if_pos (show b ≠ serRequired from hb)]

/-- Witness for C7 at a concrete stream starting with `0x05`. -/
theorem decode_rejects_wrong_serflags_witness :
    decode 10000 1000000 [5, 1, 2, 3] = .error (.unsupportedFlags 5) :=
  decode_rejects_wrong_serflags 10000 1000000 5 [1, 2, 3] (by decide)

/-- C9: both public constructors preserve the invariant that a `Tx`'s
stored hash is the hash of its `TxData`: `NewTx` stores `data.Hash`, and a
successful `Tx.UnmarshalText` stores a fresh recomputation of
`TxData.Hash` of the decoded data. -/
theorem tx_hash_invariant :
    (∀ data : TxData, (NewTx data).Hash = data.Hash) ∧
    (∀ scriptMax commitmentMax : Nat, ∀ tx tx' : Tx, ∀ p : Bytes,
      Tx.UnmarshalText scriptMax commitmentMax tx p = .ok tx' →
      tx'.Hash = tx'.TxData.Hash) := by
  constructor
  · intro data
    rfl
  · intro sm cm tx tx' p h
    unfold Tx.UnmarshalText at h
    cases htd : TxData.UnmarshalText sm cm tx.TxData p with
    | error e => rw [htd] at h; cases h
    | ok td => rw [htd] at h; cases h; rfl

/-- Witness for C9: `NewTx` on a concrete transaction, and a concrete
successful `UnmarshalText` of the minimal transaction's hex text. -/
theorem tx_hash_invariant_witness :
    (NewTx sampleTx).Hash = sampleTx.Hash ∧
    sampleDecodedTx.Hash = sampleDecodedTx.TxData.Hash :=
  ⟨tx_hash_invariant.1 sampleTx,
   tx_hash_invariant.2 10000 1000000 (NewTx emptyTxData) sampleDecodedTx sampleHexTx
     (by decide)⟩

end BC
